import Mathlib

/-!
# zasm core: `Expected` and `Error`

A shallow embedding of `include/zasm/core/expected.hpp` and
`src/zasm/src/core/error.cpp`, followed by theorems about them.

Conventions of the embedding.

* `std::variant<TSuccess, Unexpected<TFailure>>` is a two-constructor sum.
* An accessor that the C++ guards with `assert` returns `Except Fault _`:
  `Fault.assertion` when the asserted expression is false,
  `Fault.nullDeref` when the pointer handed back by `std::get_if` is null.
* 64-bit words are natural numbers; the heap of `ErrorExt` records is an
  explicit map from addresses to records.
-/

namespace zasm

/-! ## expected.hpp -/

/-- The ways an accessor can leave defined behaviour. -/
inductive Fault
  | assertion
  | nullDeref
  | dangling
  deriving DecidableEq, Repr

deriving instance DecidableEq for Except

namespace detail

/-- The struct `detail::Unexpected<T>`: a wrapper around one `const T failure`. -/
structure Unexpected (T : Type) where
  failure : T
  deriving DecidableEq, Repr

end detail

open detail

/-- The member `std::variant<TSuccess, Unexpected<TFailure>> data`. -/
inductive Variant (TSuccess TFailure : Type)
  | success (val : TSuccess)
  | unexpected (val : Unexpected TFailure)
  deriving DecidableEq, Repr

/-- The class `Expected<TSuccess, TFailure>`; its only member is `data`. -/
structure Expected (TSuccess TFailure : Type) where
  data : Variant TSuccess TFailure
  deriving DecidableEq, Repr

namespace Variant

variable {S F : Type}

/-- The call `std::holds_alternative<TSuccess>(data)`. -/
def holdsSuccess : Variant S F → Bool
  | success _ => true
  | unexpected _ => false

/-- The call `std::get_if<TSuccess>(&data)`: `none` is the null pointer. -/
def getIfSuccess : Variant S F → Option S
  | success v => some v
  | unexpected _ => none

/-- The call `std::get_if<Unexpected<TFailure>>(&data)`: `none` is the null pointer. -/
def getIfUnexpected : Variant S F → Option (Unexpected F)
  | success _ => none
  | unexpected u => some u

end Variant

namespace Expected

variable {S F : Type}

/-- The constructors `Expected(const TSuccess&)` and `Expected(TSuccess&&)`: `data{ val }`. -/
def ofSuccess (val : S) : Expected S F :=
  ⟨Variant.success val⟩

/-- The constructors `Expected(const Unexpected<TFailure>&)` and `Expected(Unexpected<TFailure>&&)`:
`data{ val }`. -/
def ofUnexpected (val : Unexpected F) : Expected S F :=
  ⟨Variant.unexpected val⟩

/-- The member `hasValue()`. -/
def hasValue (r : Expected S F) : Bool :=
  r.data.holdsSuccess

/-- The member `operator bool()`. -/
def toBool (r : Expected S F) : Bool :=
  r.hasValue

/-- The member `error()`: `assert(!hasValue())`, then `get_if<Unexpected>(&data)->failure`. -/
def error (r : Expected S F) : Except Fault F :=
  if !r.hasValue then
    match r.data.getIfUnexpected with
    | some u => Except.ok u.failure
    | none => Except.error Fault.nullDeref
  else Except.error Fault.assertion

/-- The member `value()` (non-const overload): `assert(hasValue())`, then
`*get_if<TSuccess>(&data)`. -/
def value (r : Expected S F) : Except Fault S :=
  if r.hasValue then
    match r.data.getIfSuccess with
    | some v => Except.ok v
    | none => Except.error Fault.nullDeref
  else Except.error Fault.assertion

/-- The member `value() const`: the same body as the non-const overload. -/
def valueConst (r : Expected S F) : Except Fault S :=
  if r.hasValue then
    match r.data.getIfSuccess with
    | some v => Except.ok v
    | none => Except.error Fault.nullDeref
  else Except.error Fault.assertion

/-- The member `operator*()` (non-const): `return value();`. -/
def deref (r : Expected S F) : Except Fault S :=
  r.value

/-- The member `operator*() const`: `return value();` on the const overload. -/
def derefConst (r : Expected S F) : Except Fault S :=
  r.valueConst

/-- The member `operator->()` (both overloads): `assert(hasValue())`, then the pointer
`get_if<TSuccess>(&data)` itself; a non-null pointer is given as the value it points to. -/
def arrow (r : Expected S F) : Except Fault S :=
  if r.hasValue then
    match r.data.getIfSuccess with
    | some v => Except.ok v
    | none => Except.error Fault.nullDeref
  else Except.error Fault.assertion

end Expected

/-! ## error.cpp -/

/-- The enumerators of `ErrorCode`, as the case labels of `getErrorCodeName` and
`Error::getErrorMessage` name them. -/
inductive Enumerator
  | None
  | InvalidMode
  | NotInitialized
  | InvalidOperation
  | InvalidParameter
  | FileNotFound
  | AccessDenied
  | OutOfMemory
  | LabelNotFound
  | UnresolvedLabel
  | InvalidLabel
  | LabelAlreadyBound
  | SectionNotFound
  | SectionAlreadyBound
  | SignatureMismatch
  | InvalidInstruction
  | OutOfBounds
  | ImpossibleInstruction
  | EmptyState
  | ImpossibleRelocation
  deriving DecidableEq, Repr

namespace Enumerator

/-- The case labels in the order in which both switch statements list them. -/
def all : List Enumerator :=
  [None, InvalidMode, NotInitialized, InvalidOperation, InvalidParameter, FileNotFound,
   AccessDenied, OutOfMemory, LabelNotFound, UnresolvedLabel, InvalidLabel, LabelAlreadyBound,
   SectionNotFound, SectionAlreadyBound, SignatureMismatch, InvalidInstruction, OutOfBounds,
   ImpossibleInstruction, EmptyState, ImpossibleRelocation]

/-- The identifier of an enumerator as spelled in the source. -/
def ident : Enumerator → String
  | None => "None"
  | InvalidMode => "InvalidMode"
  | NotInitialized => "NotInitialized"
  | InvalidOperation => "InvalidOperation"
  | InvalidParameter => "InvalidParameter"
  | FileNotFound => "FileNotFound"
  | AccessDenied => "AccessDenied"
  | OutOfMemory => "OutOfMemory"
  | LabelNotFound => "LabelNotFound"
  | UnresolvedLabel => "UnresolvedLabel"
  | InvalidLabel => "InvalidLabel"
  | LabelAlreadyBound => "LabelAlreadyBound"
  | SectionNotFound => "SectionNotFound"
  | SectionAlreadyBound => "SectionAlreadyBound"
  | SignatureMismatch => "SignatureMismatch"
  | InvalidInstruction => "InvalidInstruction"
  | OutOfBounds => "OutOfBounds"
  | ImpossibleInstruction => "ImpossibleInstruction"
  | EmptyState => "EmptyState"
  | ImpossibleRelocation => "ImpossibleRelocation"

end Enumerator

/-- A value of the enumeration type `ErrorCode`: the bit pattern it has in the underlying
integer type. An enumeration with a fixed underlying type can hold every value of that type,
so a value need not be one of the enumerators. -/
structure ErrorCode where
  raw : Nat
  deriving DecidableEq, Repr

/-- The declaration `enum class ErrorCode` is in `zasm/core/errors.hpp`, not in error.cpp; what
error.cpp needs of it is taken as a parameter: the width and signedness of the underlying type
and the bit pattern of each enumerator. -/
structure EnumDecl where
  bits : Nat
  isSigned : Bool
  enumValue : Enumerator → Nat

namespace EnumDecl

/-- The constant expression `ErrorCode::X`. -/
def code (d : EnumDecl) (e : Enumerator) : ErrorCode :=
  ⟨d.enumValue e⟩

/-- The conversion `static_cast<std::uint64_t>(code)`: the value of the underlying type taken
modulo `2^64` (sign extension when the underlying type is signed and the value negative). -/
def toWord (d : EnumDecl) (c : ErrorCode) : Nat :=
  if d.isSigned && decide (2 ^ (d.bits - 1) ≤ c.raw) then
    (c.raw + (2 ^ 64 - 2 ^ d.bits)) % 2 ^ 64
  else
    c.raw % 2 ^ 64

/-- The conversion `static_cast<ErrorCode>(data)` of a 64-bit word: the word is reduced to the
width of the underlying type. -/
def ofWord (d : EnumDecl) (data : Nat) : ErrorCode :=
  ⟨data % 2 ^ d.bits⟩

/-- The dispatch of `switch (err)` over the twenty case labels: the label whose constant equals
`err`, or `none` when control goes to `default`. -/
def caseOf (d : EnumDecl) (err : ErrorCode) : Option Enumerator :=
  Enumerator.all.find? (fun e => decide (d.code e = err))

/-- What the rest of the development asks of the declaration in errors.hpp: the underlying type has
between 1 and 64 bits, every enumerator is a value of it, `None` is the zero value, no two
enumerators share a value (they are case labels of one switch), and the 64-bit image of every
enumerator has bit 63 clear. -/
def WellFormed (d : EnumDecl) : Prop :=
  0 < d.bits ∧ d.bits ≤ 64 ∧
  d.enumValue Enumerator.None = 0 ∧
  (∀ a, d.enumValue a < 2 ^ d.bits) ∧
  (∀ a b, d.enumValue a = d.enumValue b → a = b) ∧
  (∀ a, d.toWord (d.code a) < 2 ^ 63)

end EnumDecl

/-- A concrete declaration used for instances: a 32-bit unsigned underlying type with the
enumerators numbered from 0 in the order of the case labels. -/
def sampleDecl : EnumDecl where
  bits := 32
  isSigned := false
  enumValue
    | Enumerator.None => 0
    | Enumerator.InvalidMode => 1
    | Enumerator.NotInitialized => 2
    | Enumerator.InvalidOperation => 3
    | Enumerator.InvalidParameter => 4
    | Enumerator.FileNotFound => 5
    | Enumerator.AccessDenied => 6
    | Enumerator.OutOfMemory => 7
    | Enumerator.LabelNotFound => 8
    | Enumerator.UnresolvedLabel => 9
    | Enumerator.InvalidLabel => 10
    | Enumerator.LabelAlreadyBound => 11
    | Enumerator.SectionNotFound => 12
    | Enumerator.SectionAlreadyBound => 13
    | Enumerator.SignatureMismatch => 14
    | Enumerator.InvalidInstruction => 15
    | Enumerator.OutOfBounds => 16
    | Enumerator.ImpossibleInstruction => 17
    | Enumerator.EmptyState => 18
    | Enumerator.ImpossibleRelocation => 19

/-- The constant `kErrorExtMask`. -/
def kErrorExtMask : Nat := 0x8000000000000000

/-- The expression `~x` on `std::uint64_t`. -/
def not64 (x : Nat) : Nat :=
  0xFFFFFFFFFFFFFFFF - x % 2 ^ 64

/-- The struct `ErrorExt`. -/
structure ErrorExt where
  code : ErrorCode
  message : String
  deriving DecidableEq, Repr

/-- The live `ErrorExt` records, by address. -/
abbrev Heap := Nat → Option ErrorExt

namespace Heap

/-- The heap with no live record. -/
def empty : Heap := fun _ => none

/-- The heap after a record has been placed at address `p`. -/
def store (h : Heap) (p : Nat) (ext : ErrorExt) : Heap :=
  fun q => if q = p then some ext else h q

/-- The heap after the record at address `p` has been released. -/
def free (h : Heap) (p : Nat) : Heap :=
  fun q => if q = p then none else h q

/-- Reading through an `ErrorExt*`: defined only when the pointer is non-null and the record
is live. -/
def load (h : Heap) (p : Nat) : Except Fault ErrorExt :=
  if p = 0 then Except.error Fault.nullDeref
  else
    match h p with
    | some ext => Except.ok ext
    | none => Except.error Fault.dangling

/-- The expression `delete ext`: nothing happens for the null pointer, the live record is released
otherwise, and releasing an address with no live record is undefined. -/
def delete (h : Heap) (p : Nat) : Except Fault Heap :=
  if p = 0 then Except.ok h
  else
    match h p with
    | some _ => Except.ok (h.free p)
    | none => Except.error Fault.dangling

end Heap

/-- The function `toErrorExt`: `assert((data & kErrorExtMask) != 0)`, then the address
`data & ~kErrorExtMask`. -/
def toErrorExt (data : Nat) : Except Fault Nat :=
  if data &&& kErrorExtMask ≠ 0 then Except.ok (data &&& not64 kErrorExtMask)
  else Except.error Fault.assertion

/-- The class `Error`; its only member is the word `_data`. -/
structure Error where
  _data : Nat
  deriving DecidableEq, Repr

/-- The function `getErrorCode(std::uint64_t data)`. -/
def getErrorCode (d : EnumDecl) (h : Heap) (data : Nat) : Except Fault ErrorCode :=
  if data = 0 then Except.ok (d.code Enumerator.None)
  else if data &&& kErrorExtMask ≠ 0 then
    match toErrorExt data with
    | Except.ok p =>
      match h.load p with
      | Except.ok ext => Except.ok ext.code
      | Except.error f => Except.error f
    | Except.error f => Except.error f
  else Except.ok (d.ofWord data)

/-- The function `getErrorCodeName(ErrorCode err)`: each case returns the stringified label
(`#e` of `ERROR_STRING(ErrorCode::X)`), the default branch leaves the switch and `nullptr`
(here `none`) is returned. -/
def getErrorCodeName (d : EnumDecl) (err : ErrorCode) : Option String :=
  match d.caseOf err with
  | some Enumerator.None => some "ErrorCode::None"
  | some Enumerator.InvalidMode => some "ErrorCode::InvalidMode"
  | some Enumerator.NotInitialized => some "ErrorCode::NotInitialized"
  | some Enumerator.InvalidOperation => some "ErrorCode::InvalidOperation"
  | some Enumerator.InvalidParameter => some "ErrorCode::InvalidParameter"
  | some Enumerator.FileNotFound => some "ErrorCode::FileNotFound"
  | some Enumerator.AccessDenied => some "ErrorCode::AccessDenied"
  | some Enumerator.OutOfMemory => some "ErrorCode::OutOfMemory"
  | some Enumerator.LabelNotFound => some "ErrorCode::LabelNotFound"
  | some Enumerator.UnresolvedLabel => some "ErrorCode::UnresolvedLabel"
  | some Enumerator.InvalidLabel => some "ErrorCode::InvalidLabel"
  | some Enumerator.LabelAlreadyBound => some "ErrorCode::LabelAlreadyBound"
  | some Enumerator.SectionNotFound => some "ErrorCode::SectionNotFound"
  | some Enumerator.SectionAlreadyBound => some "ErrorCode::SectionAlreadyBound"
  | some Enumerator.SignatureMismatch => some "ErrorCode::SignatureMismatch"
  | some Enumerator.InvalidInstruction => some "ErrorCode::InvalidInstruction"
  | some Enumerator.OutOfBounds => some "ErrorCode::OutOfBounds"
  | some Enumerator.ImpossibleInstruction => some "ErrorCode::ImpossibleInstruction"
  | some Enumerator.EmptyState => some "ErrorCode::EmptyState"
  | some Enumerator.ImpossibleRelocation => some "ErrorCode::ImpossibleRelocation"
  | none => none

/-- The switch of `Error::getErrorMessage` over `getCode()`: each case returns its literal, the
default branch leaves the switch and the final `return ""` is reached. -/
def defaultMessage (d : EnumDecl) (err : ErrorCode) : String :=
  match d.caseOf err with
  | some Enumerator.None => "No error"
  | some Enumerator.InvalidMode => "Invalid mode"
  | some Enumerator.NotInitialized => "Not initialized"
  | some Enumerator.InvalidOperation => "Invalid operation"
  | some Enumerator.InvalidParameter => "Invalid parameter"
  | some Enumerator.FileNotFound => "File not found"
  | some Enumerator.AccessDenied => "Access denied"
  | some Enumerator.OutOfMemory => "Out of memory"
  | some Enumerator.LabelNotFound => "Label not found"
  | some Enumerator.UnresolvedLabel => "Unresolved label"
  | some Enumerator.InvalidLabel => "Invalid label"
  | some Enumerator.LabelAlreadyBound => "Label already bound"
  | some Enumerator.SectionNotFound => "Section not found"
  | some Enumerator.SectionAlreadyBound => "Section already bound"
  | some Enumerator.SignatureMismatch => "Signature mismatch"
  | some Enumerator.InvalidInstruction => "Invalid instruction"
  | some Enumerator.OutOfBounds => "Out of bounds"
  | some Enumerator.ImpossibleInstruction => "Impossible instruction"
  | some Enumerator.EmptyState => "Empty state"
  | some Enumerator.ImpossibleRelocation => "Impossible relocation"
  | none => ""

namespace Error

/-- The constructor `Error::Error(ErrorCode code)`. -/
def ofCode (d : EnumDecl) (code : ErrorCode) : Error :=
  ⟨d.toWord code⟩

/-- The destructor `Error::~Error()`: an extended word has its record deleted, then `_data = 0`.
The result is the object's final word and the heap. -/
def destroy (h : Heap) (e : Error) : Except Fault (Error × Heap) :=
  if e._data &&& kErrorExtMask ≠ 0 then
    match toErrorExt e._data with
    | Except.ok p =>
      match h.delete p with
      | Except.ok h' => Except.ok (⟨0⟩, h')
      | Except.error f => Except.error f
    | Except.error f => Except.error f
  else Except.ok (⟨0⟩, h)

/-- The member `Error::getCode()`. -/
def getCode (d : EnumDecl) (h : Heap) (e : Error) : Except Fault ErrorCode :=
  getErrorCode d h e._data

/-- The member `Error::operator==(ErrorCode code)`: `return getCode() == code;`. -/
def eqCode (d : EnumDecl) (h : Heap) (e : Error) (code : ErrorCode) : Except Fault Bool :=
  match e.getCode d h with
  | Except.ok c => Except.ok (decide (c = code))
  | Except.error f => Except.error f

/-- The member `Error::operator!=(ErrorCode code)`: `return !(*this == code);`. -/
def neCode (d : EnumDecl) (h : Heap) (e : Error) (code : ErrorCode) : Except Fault Bool :=
  match e.eqCode d h code with
  | Except.ok b => Except.ok (!b)
  | Except.error f => Except.error f

/-- The member `Error::getErrorName()`: `return getErrorCodeName(getCode());`. -/
def getErrorName (d : EnumDecl) (h : Heap) (e : Error) : Except Fault (Option String) :=
  match e.getCode d h with
  | Except.ok c => Except.ok (getErrorCodeName d c)
  | Except.error f => Except.error f

/-- The member `Error::getErrorMessage()`. -/
def getErrorMessage (d : EnumDecl) (h : Heap) (e : Error) : Except Fault String :=
  if e._data &&& kErrorExtMask ≠ 0 then
    match toErrorExt e._data with
    | Except.ok p =>
      match h.load p with
      | Except.ok ext => Except.ok ext.message
      | Except.error f => Except.error f
    | Except.error f => Except.error f
  else
    match e.getCode d h with
    | Except.ok c => Except.ok (defaultMessage d c)
    | Except.error f => Except.error f

end Error

/-! ## Declared in errors.hpp

The members below are declared in `zasm/core/errors.hpp`; error.cpp does not define them. -/

namespace Error

/-- Modelled from the spec: the default constructor `Error()`, which error.cpp does not define.
"The zero value is the reserved no error/None sentinel." -/
def noError : Error :=
  ⟨0⟩

/-- Modelled from the spec: the boolean conversion of `Error`, which error.cpp does not define.
"Boolean truthiness: true iff get-code() is not the no error sentinel." -/
def toBool (d : EnumDecl) (h : Heap) (e : Error) : Except Fault Bool :=
  match e.getCode d h with
  | Except.ok c => Except.ok (decide (c ≠ d.code Enumerator.None))
  | Except.error f => Except.error f

/-- Modelled from the spec: the constructor `Error(code, message)`, which error.cpp does not
define.
"Extended: the tag bit is set; the remaining bits identify an owned heap record containing
{ErrorCode code; message text}", "allocates one owned record holding the code and a copy of the
message text". `p` is the address the allocation returns. -/
def ofCodeMessage (h : Heap) (p : Nat) (code : ErrorCode) (message : String) : Error × Heap :=
  (⟨p ||| kErrorExtMask⟩, h.store p ⟨code, message⟩)

end Error

/-- An assignment `*p = w` through the pointer `p = std::get_if<TSuccess>(&data)`: the `TSuccess`
object held by the variant is overwritten where it is; there is nothing to write through when
`p` is null. -/
def Variant.assignSuccess {S F : Type} : Variant S F → S → Except Fault (Variant S F)
  | Variant.success _, w => Except.ok (Variant.success w)
  | Variant.unexpected _, _ => Except.error Fault.nullDeref

namespace Expected

variable {S F : Type}

/-- A call of the non-const `value()` followed by the assignment of `w` through the returned
`TSuccess&`; `operator*()` returns the same reference. -/
def valueAssign (r : Expected S F) (w : S) : Except Fault (Expected S F) :=
  if r.hasValue then
    match r.data.assignSuccess w with
    | Except.ok data => Except.ok ⟨data⟩
    | Except.error f => Except.error f
  else Except.error Fault.assertion

/-- A call of the non-const `operator->()` followed by the assignment of `w` through the returned
`TSuccess*`. -/
def arrowAssign (r : Expected S F) (w : S) : Except Fault (Expected S F) :=
  if r.hasValue then
    match r.data.assignSuccess w with
    | Except.ok data => Except.ok ⟨data⟩
    | Except.error f => Except.error f
  else Except.error Fault.assertion

/-- The public operations of `Expected` on an existing object: the members of the class, and
the writes that the references and pointers handed out by the non-const members allow. -/
inductive Op (S : Type)
  | hasValue
  | toBool
  | error
  | value
  | valueConst
  | deref
  | derefConst
  | arrow
  | valueAssign (w : S)
  | derefAssign (w : S)
  | arrowAssign (w : S)
  deriving Repr

/-- The object after one operation. A member that only reads leaves the object as it is,
provided its assertion holds; the writes go through `valueAssign` and `arrowAssign`. -/
def step (r : Expected S F) : Op S → Except Fault (Expected S F)
  | Op.hasValue => Except.ok r
  | Op.toBool => Except.ok r
  | Op.error =>
    match r.error with
    | Except.ok _ => Except.ok r
    | Except.error f => Except.error f
  | Op.value =>
    match r.value with
    | Except.ok _ => Except.ok r
    | Except.error f => Except.error f
  | Op.valueConst =>
    match r.valueConst with
    | Except.ok _ => Except.ok r
    | Except.error f => Except.error f
  | Op.deref =>
    match r.deref with
    | Except.ok _ => Except.ok r
    | Except.error f => Except.error f
  | Op.derefConst =>
    match r.derefConst with
    | Except.ok _ => Except.ok r
    | Except.error f => Except.error f
  | Op.arrow =>
    match r.arrow with
    | Except.ok _ => Except.ok r
    | Except.error f => Except.error f
  | Op.valueAssign w => r.valueAssign w
  | Op.derefAssign w => r.valueAssign w
  | Op.arrowAssign w => r.arrowAssign w

/-- The object after a sequence of operations, carried out from left to right. -/
def run (r : Expected S F) : List (Op S) → Except Fault (Expected S F)
  | [] => Except.ok r
  | op :: ops =>
    match r.step op with
    | Except.ok r1 => run r1 ops
    | Except.error f => Except.error f

end Expected

/-! ## The enumerator values and the tag bit -/

/-- Modelled from the spec: the values that the declaration of `ErrorCode` in errors.hpp gives
its enumerators, which error.cpp does not show. "Inline: the tag bit is clear; the remaining bits
directly encode the ErrorCode enumerant": the numeric value of the enumerator is non-negative
(its sign bit is clear when the underlying type is signed) and below `2^63`. -/
def EnumDecl.FitsInline (d : EnumDecl) (c : Enumerator) : Prop :=
  d.enumValue c < 2 ^ 63 ∧ (d.isSigned = true → d.enumValue c < 2 ^ (d.bits - 1))

/-! ## The name lookup with assertions enabled -/

/-- The function `getErrorCodeName` in a build that keeps `assert`: the default branch stops at
`assert(false)` instead of going on to `return nullptr`. -/
def getErrorCodeNameChecked (d : EnumDecl) (err : ErrorCode) : Except Fault String :=
  match getErrorCodeName d err with
  | some name => Except.ok name
  | none => Except.error Fault.assertion

end zasm

namespace zasm

/-! ## Auxiliary facts: the tag bit -/

theorem kErrorExtMask_eq : kErrorExtMask = 2 ^ 63 := by decide

theorem not64_kErrorExtMask : not64 kErrorExtMask = 2 ^ 63 - 1 := by decide

theorem and_mask_of_lt {x : Nat} (hx : x < 2 ^ 63) : x &&& kErrorExtMask = 0 := by
  rw [kErrorExtMask_eq, Nat.and_two_pow, Nat.testBit_lt_two_pow hx]
  simp

theorem or_mask_and_mask (p : Nat) : (p ||| kErrorExtMask) &&& kErrorExtMask ≠ 0 := by
  rw [kErrorExtMask_eq, Nat.and_two_pow, Nat.testBit_or, Nat.testBit_two_pow_self]
  simp

theorem or_mask_and_not_mask {p : Nat} (hp : p < 2 ^ 63) :
    (p ||| kErrorExtMask) &&& not64 kErrorExtMask = p := by
  rw [not64_kErrorExtMask, Nat.and_pow_two_sub_one_eq_mod, kErrorExtMask_eq]
  apply Nat.eq_of_testBit_eq
  intro i
  rw [Nat.testBit_mod_two_pow, Nat.testBit_or, Nat.testBit_two_pow]
  by_cases hi : i < 63
  · have : ¬ (63 = i) := by omega
    simp [hi, this]
  · have hle : 2 ^ 63 ≤ 2 ^ i := Nat.pow_le_pow_right (by decide) (by omega)
    have : p.testBit i = false := Nat.testBit_lt_two_pow (lt_of_lt_of_le hp hle)
    simp [hi, this]

theorem toErrorExt_tagged {p : Nat} (hp : p < 2 ^ 63) :
    toErrorExt (p ||| kErrorExtMask) = Except.ok p := by
  unfold toErrorExt
  rw [if_pos (or_mask_and_mask p), or_mask_and_not_mask hp]

/-! ## Auxiliary facts: the enumeration -/

theorem sampleDecl_wellFormed : sampleDecl.WellFormed := by
  refine ⟨by decide, by decide, rfl, ?_, ?_, ?_⟩
  · intro a
    cases a <;> decide
  · intro a b
    cases a <;> cases b <;> decide
  · intro a
    cases a <;> decide

namespace EnumDecl

theorem toWord_code {d : EnumDecl} (hd : d.WellFormed) (a : Enumerator) :
    d.toWord (d.code a) = d.enumValue a := by
  obtain ⟨hb0, hb64, -, hrange, -, htag⟩ := hd
  have ht := htag a
  have hr := hrange a
  have hpow : 2 ^ d.bits ≤ 2 ^ 64 := Nat.pow_le_pow_right (by decide) hb64
  have hhalf : 2 ^ d.bits = 2 * 2 ^ (d.bits - 1) := by
    rw [← Nat.pow_succ']
    congr 1
    omega
  have hhalf63 : 2 ^ (d.bits - 1) ≤ 2 ^ 63 := Nat.pow_le_pow_right (by decide) (by omega)
  unfold toWord at ht ⊢
  simp only [code] at ht ⊢
  norm_num at hpow hhalf63 ht ⊢
  split_ifs at ht ⊢ with hc
  · exfalso
    obtain ⟨-, hge⟩ := hc
    rw [Nat.mod_eq_of_lt (by omega)] at ht
    omega
  · exact Nat.mod_eq_of_lt (by omega)

theorem ofWord_toWord_code {d : EnumDecl} (hd : d.WellFormed) (a : Enumerator) :
    d.ofWord (d.toWord (d.code a)) = d.code a := by
  rw [toWord_code hd]
  unfold ofWord code
  rw [Nat.mod_eq_of_lt (hd.2.2.2.1 a)]

theorem code_injective {d : EnumDecl} (hd : d.WellFormed) {a b : Enumerator}
    (hab : d.code a = d.code b) : a = b :=
  hd.2.2.2.2.1 a b (congrArg ErrorCode.raw hab)

theorem caseOf_code {d : EnumDecl} (hd : d.WellFormed) (a : Enumerator) :
    d.caseOf (d.code a) = some a := by
  have hiff : ∀ b : Enumerator, decide (d.code b = d.code a) = decide (b = a) := by
    intro b
    by_cases hba : b = a
    · simp [hba]
    · have : d.code b ≠ d.code a := fun hcode => hba (code_injective hd hcode)
      simp [hba, this]
  unfold caseOf
  simp only [hiff]
  cases a <;> rfl

theorem caseOf_code_None (d : EnumDecl) : d.caseOf (d.code Enumerator.None) = some Enumerator.None := by
  simp [caseOf, Enumerator.all]

end EnumDecl

/-! ## Auxiliary facts: inline and extended errors -/

theorem getErrorCode_zero (d : EnumDecl) (h : Heap) :
    getErrorCode d h 0 = Except.ok (d.code Enumerator.None) := by
  simp [getErrorCode]

theorem getCode_ofCode {d : EnumDecl} (hd : d.WellFormed) (h : Heap) (a : Enumerator) :
    (Error.ofCode d (d.code a)).getCode d h = Except.ok (d.code a) := by
  unfold Error.getCode Error.ofCode getErrorCode
  simp only
  by_cases hz : d.toWord (d.code a) = 0
  · rw [if_pos hz]
    rw [EnumDecl.toWord_code hd] at hz
    have : a = Enumerator.None := hd.2.2.2.2.1 a Enumerator.None (by rw [hz, hd.2.2.1])
    rw [this]
  · rw [if_neg hz, and_mask_of_lt (hd.2.2.2.2.2 a)]
    simp [EnumDecl.ofWord_toWord_code hd]

theorem ofCode_tag_clear {d : EnumDecl} (hd : d.WellFormed) (a : Enumerator) :
    (Error.ofCode d (d.code a))._data &&& kErrorExtMask = 0 :=
  and_mask_of_lt (hd.2.2.2.2.2 a)

theorem getCode_extended (d : EnumDecl) (h : Heap) {p : Nat} (hp0 : p ≠ 0) (hp : p < 2 ^ 63)
    {ext : ErrorExt} (hlive : h p = some ext) :
    (Error.mk (p ||| kErrorExtMask)).getCode d h = Except.ok ext.code := by
  have hnz : p ||| kErrorExtMask ≠ 0 := fun hz => or_mask_and_mask p (by rw [hz]; rfl)
  unfold Error.getCode getErrorCode
  simp only
  rw [if_neg hnz, if_pos (or_mask_and_mask p), toErrorExt_tagged hp]
  simp [Heap.load, hp0, hlive]

theorem getErrorMessage_extended (d : EnumDecl) (h : Heap) {p : Nat} (hp0 : p ≠ 0)
    (hp : p < 2 ^ 63) {ext : ErrorExt} (hlive : h p = some ext) :
    (Error.mk (p ||| kErrorExtMask)).getErrorMessage d h = Except.ok ext.message := by
  unfold Error.getErrorMessage
  simp only
  rw [if_pos (or_mask_and_mask p), toErrorExt_tagged hp]
  simp [Heap.load, hp0, hlive]

end zasm

namespace zasm

/-- C3: for every catalog code `c`, the inline `Error(c)` satisfies `getCode() == c` and
`Error(c) == c` is true. -/
theorem C3_code_roundtrip (d : EnumDecl) (hd : d.WellFormed) (h : Heap) (c : Enumerator) :
    (Error.ofCode d (d.code c)).getCode d h = Except.ok (d.code c) ∧
    (Error.ofCode d (d.code c)).eqCode d h (d.code c) = Except.ok true := by
  have hget := getCode_ofCode hd h c
  refine ⟨hget, ?_⟩
  simp [Error.eqCode, hget]

/-- An instance of C3: `Error(FileNotFound)` on the sample declaration. -/
theorem C3_code_roundtrip_witness :
    sampleDecl.WellFormed ∧
    (Error.ofCode sampleDecl (sampleDecl.code Enumerator.FileNotFound)).getCode sampleDecl
        Heap.empty = Except.ok (sampleDecl.code Enumerator.FileNotFound) ∧
    (Error.ofCode sampleDecl (sampleDecl.code Enumerator.FileNotFound)).eqCode sampleDecl
        Heap.empty (sampleDecl.code Enumerator.FileNotFound) = Except.ok true :=
  ⟨sampleDecl_wellFormed,
    C3_code_roundtrip sampleDecl sampleDecl_wellFormed Heap.empty Enumerator.FileNotFound⟩

/-- C4: the "no error" `Error` is the zero word, both as the default `Error` and, when `None`
is the zero value of the enumeration, as `Error(ErrorCode::None)`; on it `getCode()` is
`ErrorCode::None`, the boolean conversion is false and `getErrorMessage()` is "No error". -/
theorem C4_no_error (d : EnumDecl) (hNone : d.enumValue Enumerator.None = 0) (h : Heap) :
    Error.noError = Error.mk 0 ∧
    Error.ofCode d (d.code Enumerator.None) = Error.mk 0 ∧
    (Error.mk 0).getCode d h = Except.ok (d.code Enumerator.None) ∧
    (Error.mk 0).toBool d h = Except.ok false ∧
    (Error.mk 0).getErrorMessage d h = Except.ok "No error" := by
  have hget : (Error.mk 0).getCode d h = Except.ok (d.code Enumerator.None) :=
    getErrorCode_zero d h
  refine ⟨rfl, ?_, hget, ?_, ?_⟩
  · simp [Error.ofCode, EnumDecl.toWord, EnumDecl.code, hNone]
  · simp [Error.toBool, hget]
  · have hclear : (0 : Nat) &&& kErrorExtMask = 0 := by decide
    simp [Error.getErrorMessage, hget, hclear, defaultMessage, EnumDecl.caseOf_code_None]

/-- An instance of C4 on the sample declaration and the empty heap. -/
theorem C4_no_error_witness :
    sampleDecl.enumValue Enumerator.None = 0 ∧
    Error.noError = Error.mk 0 ∧
    Error.ofCode sampleDecl (sampleDecl.code Enumerator.None) = Error.mk 0 ∧
    (Error.mk 0).getCode sampleDecl Heap.empty = Except.ok (sampleDecl.code Enumerator.None) ∧
    (Error.mk 0).toBool sampleDecl Heap.empty = Except.ok false ∧
    (Error.mk 0).getErrorMessage sampleDecl Heap.empty = Except.ok "No error" :=
  ⟨rfl, C4_no_error sampleDecl rfl Heap.empty⟩

/-- C5: for each of the twenty catalog codes `c`, the switch of `getErrorCodeName` takes the case
of `c` and not the default branch, and `Error(c).getErrorName()` is a non-null string, the
stringified case label `ErrorCode::` followed by the enumerator's identifier. -/
theorem C5_error_name (d : EnumDecl) (hd : d.WellFormed) (h : Heap) (c : Enumerator) :
    Enumerator.all.length = 20 ∧ c ∈ Enumerator.all ∧
    d.caseOf (d.code c) = some c ∧
    (Error.ofCode d (d.code c)).getErrorName d h = Except.ok (some ("ErrorCode::" ++ c.ident)) := by
  refine ⟨rfl, by cases c <;> decide, EnumDecl.caseOf_code hd c, ?_⟩
  simp only [Error.getErrorName, getCode_ofCode hd h c, getErrorCodeName,
    EnumDecl.caseOf_code hd c]
  cases c <;> decide

/-- An instance of C5: the name of `Error(EmptyState)` on the sample declaration. -/
theorem C5_error_name_witness :
    sampleDecl.WellFormed ∧
    (Error.ofCode sampleDecl (sampleDecl.code Enumerator.EmptyState)).getErrorName sampleDecl
        Heap.empty = Except.ok (some "ErrorCode::EmptyState") :=
  ⟨sampleDecl_wellFormed,
    (C5_error_name sampleDecl sampleDecl_wellFormed Heap.empty Enumerator.EmptyState).2.2.2⟩

/-- C6: for every catalog code `c`, `Error(c).getErrorMessage()` is the phrase of the case of
`c`, which is not the empty string; for `FileNotFound` it is "File not found". -/
theorem C6_default_message (d : EnumDecl) (hd : d.WellFormed) (h : Heap) (c : Enumerator) :
    (∃ m : String, (Error.ofCode d (d.code c)).getErrorMessage d h = Except.ok m ∧ m ≠ "" ∧
      m = defaultMessage d (d.code c)) ∧
    (Error.ofCode d (d.code Enumerator.FileNotFound)).getErrorMessage d h
      = Except.ok "File not found" := by
  have hmsg : ∀ a : Enumerator,
      (Error.ofCode d (d.code a)).getErrorMessage d h = Except.ok (defaultMessage d (d.code a)) := by
    intro a
    simp [Error.getErrorMessage, ofCode_tag_clear hd a, getCode_ofCode hd h a]
  refine ⟨⟨defaultMessage d (d.code c), hmsg c, ?_, rfl⟩, ?_⟩
  · simp only [defaultMessage, EnumDecl.caseOf_code hd c]
    cases c <;> decide
  · rw [hmsg]
    simp only [defaultMessage, EnumDecl.caseOf_code hd]

/-- An instance of C6: the message of `Error(OutOfMemory)` on the sample declaration. -/
theorem C6_default_message_witness :
    sampleDecl.WellFormed ∧
    (∃ m : String,
      (Error.ofCode sampleDecl (sampleDecl.code Enumerator.OutOfMemory)).getErrorMessage
        sampleDecl Heap.empty = Except.ok m ∧ m ≠ "" ∧
      m = defaultMessage sampleDecl (sampleDecl.code Enumerator.OutOfMemory)) :=
  ⟨sampleDecl_wellFormed,
    (C6_default_message sampleDecl sampleDecl_wellFormed Heap.empty Enumerator.OutOfMemory).1⟩

/-- C7: for every code `c` and every message text `m`, the empty text included, the extended
`Error(c, m)` whose record is at a non-null address below `2^63` satisfies
`getErrorMessage() == m` and `getCode() == c`. -/
theorem C7_extended_message (d : EnumDecl) (h : Heap) (p : Nat) (hp0 : p ≠ 0) (hp : p < 2 ^ 63)
    (c : ErrorCode) (m : String) :
    (Error.ofCodeMessage h p c m).1.getErrorMessage d (Error.ofCodeMessage h p c m).2
      = Except.ok m ∧
    (Error.ofCodeMessage h p c m).1.getCode d (Error.ofCodeMessage h p c m).2 = Except.ok c := by
  have hlive : (h.store p ⟨c, m⟩) p = some ⟨c, m⟩ := by simp [Heap.store]
  exact ⟨getErrorMessage_extended d _ hp0 hp hlive, getCode_extended d _ hp0 hp hlive⟩

/-- An instance of C7: `Error(LabelAlreadyBound, "")`, whose custom text is empty while the
catalog phrase of the code is not. -/
theorem C7_extended_message_witness :
    (Error.ofCodeMessage Heap.empty 4096 (sampleDecl.code Enumerator.LabelAlreadyBound) "").1.getErrorMessage
        sampleDecl
        (Error.ofCodeMessage Heap.empty 4096 (sampleDecl.code Enumerator.LabelAlreadyBound) "").2
      = Except.ok "" ∧
    (Error.ofCodeMessage Heap.empty 4096 (sampleDecl.code Enumerator.LabelAlreadyBound) "").1.getCode
        sampleDecl
        (Error.ofCodeMessage Heap.empty 4096 (sampleDecl.code Enumerator.LabelAlreadyBound) "").2
      = Except.ok (sampleDecl.code Enumerator.LabelAlreadyBound) :=
  C7_extended_message sampleDecl Heap.empty 4096 (by decide) (by decide)
    (sampleDecl.code Enumerator.LabelAlreadyBound) ""

/-- C8: equality of an `Error` against a code looks at the code only. For every `Error` `e`,
every code `code` and every heap, `e == code` is true exactly when `e.getCode()` is `code`, it is
`getCode() == code` in every case, and `e != code` is the negation of `e == code`; in particular
an extended `Error` whose record holds code `c` compares equal to `c` whatever message the record
holds. -/
theorem C8_equality_code_only (d : EnumDecl) (h : Heap) (e : Error) (code : ErrorCode) :
    (e.eqCode d h code = Except.ok true ↔ e.getCode d h = Except.ok code) ∧
    (e.eqCode d h code = Except.ok false ↔
      ∃ c1, e.getCode d h = Except.ok c1 ∧ c1 ≠ code) ∧
    e.eqCode d h code = (e.getCode d h).map (fun c1 => decide (c1 = code)) ∧
    e.neCode d h code = (e.eqCode d h code).map (fun b => !b) ∧
    (e.neCode d h code = Except.ok true ↔ e.eqCode d h code = Except.ok false) ∧
    (e.neCode d h code = Except.ok false ↔ e.eqCode d h code = Except.ok true) ∧
    (∀ (p : Nat) (c : ErrorCode) (m : String), p ≠ 0 → p < 2 ^ 63 → h p = some ⟨c, m⟩ →
      (Error.mk (p ||| kErrorExtMask)).eqCode d h c = Except.ok true ∧
      (Error.mk (p ||| kErrorExtMask)).neCode d h c = Except.ok false) := by
  refine ⟨?_, ?_, ?_, ?_, ?_, ?_, ?_⟩
  · unfold Error.eqCode
    cases hg : e.getCode d h with
    | error f => simp
    | ok c1 => simp
  · unfold Error.eqCode
    cases hg : e.getCode d h with
    | error f => simp
    | ok c1 => simp
  · unfold Error.eqCode
    cases hg : e.getCode d h <;> rfl
  · unfold Error.neCode
    cases hq : e.eqCode d h code <;> rfl
  · unfold Error.neCode
    cases hq : e.eqCode d h code with
    | error f => simp
    | ok b => cases b <;> simp
  · unfold Error.neCode
    cases hq : e.eqCode d h code with
    | error f => simp
    | ok b => cases b <;> simp
  · intro p c m hp0 hp hlive
    have hext : (Error.mk (p ||| kErrorExtMask)).getCode d h = Except.ok c :=
      getCode_extended d h hp0 hp hlive
    constructor
    · simp [Error.eqCode, hext]
    · simp [Error.neCode, Error.eqCode, hext]

/-- An instance of C8. On the empty heap the inline `Error(FileNotFound)` compares equal to
`FileNotFound` and not to `OutOfBounds`; two extended errors with code `LabelAlreadyBound` and the
messages "A" and "B" both compare equal to `LabelAlreadyBound`. -/
theorem C8_equality_code_only_witness :
    (Error.ofCode sampleDecl (sampleDecl.code Enumerator.FileNotFound)).eqCode sampleDecl
        Heap.empty (sampleDecl.code Enumerator.FileNotFound) = Except.ok true ∧
    (Error.ofCode sampleDecl (sampleDecl.code Enumerator.FileNotFound)).eqCode sampleDecl
        Heap.empty (sampleDecl.code Enumerator.OutOfBounds) = Except.ok false ∧
    (Error.ofCode sampleDecl (sampleDecl.code Enumerator.FileNotFound)).neCode sampleDecl
        Heap.empty (sampleDecl.code Enumerator.OutOfBounds) = Except.ok true ∧
    (Error.mk (4096 ||| kErrorExtMask)).eqCode sampleDecl
        (Heap.empty.store 4096 ⟨sampleDecl.code Enumerator.LabelAlreadyBound, "A"⟩)
        (sampleDecl.code Enumerator.LabelAlreadyBound) = Except.ok true ∧
    (Error.mk (4096 ||| kErrorExtMask)).eqCode sampleDecl
        (Heap.empty.store 4096 ⟨sampleDecl.code Enumerator.LabelAlreadyBound, "B"⟩)
        (sampleDecl.code Enumerator.LabelAlreadyBound) = Except.ok true :=
  ⟨(C8_equality_code_only sampleDecl Heap.empty
      (Error.ofCode sampleDecl (sampleDecl.code Enumerator.FileNotFound))
      (sampleDecl.code Enumerator.FileNotFound)).1.mpr (by decide),
   (C8_equality_code_only sampleDecl Heap.empty
      (Error.ofCode sampleDecl (sampleDecl.code Enumerator.FileNotFound))
      (sampleDecl.code Enumerator.OutOfBounds)).2.1.mpr
        ⟨sampleDecl.code Enumerator.FileNotFound, by decide, by decide⟩,
   (C8_equality_code_only sampleDecl Heap.empty
      (Error.ofCode sampleDecl (sampleDecl.code Enumerator.FileNotFound))
      (sampleDecl.code Enumerator.OutOfBounds)).2.2.2.2.1.mpr (by decide),
   ((C8_equality_code_only sampleDecl
      (Heap.empty.store 4096 ⟨sampleDecl.code Enumerator.LabelAlreadyBound, "A"⟩)
      (Error.mk 0) (sampleDecl.code Enumerator.None)).2.2.2.2.2.2 4096
      (sampleDecl.code Enumerator.LabelAlreadyBound) "A" (by decide) (by decide) (by decide)).1,
   ((C8_equality_code_only sampleDecl
      (Heap.empty.store 4096 ⟨sampleDecl.code Enumerator.LabelAlreadyBound, "B"⟩)
      (Error.mk 0) (sampleDecl.code Enumerator.None)).2.2.2.2.2.2 4096
      (sampleDecl.code Enumerator.LabelAlreadyBound) "B" (by decide) (by decide) (by decide)).1⟩

/-- C9: for every `Expected` `r`, `value()`, `operator*` and `operator->` are defined exactly when
`r.hasValue()` is true and `error()` exactly when it is false, so exactly one side is defined;
when the asserted condition holds the pointer returned by `std::get_if` is not null. -/
theorem C9_accessor_preconditions {S F : Type} (r : Expected S F) :
    ((∃ v, r.value = Except.ok v) ↔ r.hasValue = true) ∧
    ((∃ v, r.valueConst = Except.ok v) ↔ r.hasValue = true) ∧
    ((∃ v, r.deref = Except.ok v) ↔ r.hasValue = true) ∧
    ((∃ v, r.derefConst = Except.ok v) ↔ r.hasValue = true) ∧
    ((∃ v, r.arrow = Except.ok v) ↔ r.hasValue = true) ∧
    ((∃ e, r.error = Except.ok e) ↔ r.hasValue = false) ∧
    ((∃ v, r.value = Except.ok v) ↔ ¬ ∃ e, r.error = Except.ok e) ∧
    (r.hasValue = true ↔ r.data.getIfSuccess ≠ none) ∧
    (r.hasValue = false ↔ r.data.getIfUnexpected ≠ none) ∧
    r.value ≠ Except.error Fault.nullDeref ∧
    r.valueConst ≠ Except.error Fault.nullDeref ∧
    r.arrow ≠ Except.error Fault.nullDeref ∧
    r.error ≠ Except.error Fault.nullDeref := by
  obtain ⟨data⟩ := r
  cases data with
  | success v =>
    simp [Expected.value, Expected.valueConst, Expected.deref, Expected.derefConst,
      Expected.arrow, Expected.error, Expected.hasValue, Variant.holdsSuccess,
      Variant.getIfSuccess, Variant.getIfUnexpected]
  | unexpected u =>
    simp [Expected.value, Expected.valueConst, Expected.deref, Expected.derefConst,
      Expected.arrow, Expected.error, Expected.hasValue, Variant.holdsSuccess,
      Variant.getIfSuccess, Variant.getIfUnexpected]

/-- C10: for every `Expected` `r`, the conversion of `r` to `bool` returns what `r.hasValue()`
returns. -/
theorem C10_bool_is_hasValue {S F : Type} (r : Expected S F) (v : S)
    (u : detail.Unexpected F) :
    r.toBool = r.hasValue ∧
    (Expected.ofSuccess v : Expected S F).toBool = true ∧
    (Expected.ofUnexpected u : Expected S F).toBool = false := by
  exact ⟨rfl, rfl, rfl⟩

/-! ## Auxiliary facts: operations on an `Expected` object -/

theorem Expected.step_hasValue {S F : Type} (r r1 : Expected S F) (op : Expected.Op S)
    (hstep : r.step op = Except.ok r1) : r1.hasValue = r.hasValue := by
  obtain ⟨data⟩ := r
  cases data with
  | success v =>
    cases op <;>
      simp [Expected.step, Expected.error, Expected.value, Expected.valueConst, Expected.deref,
        Expected.derefConst, Expected.arrow, Expected.valueAssign, Expected.arrowAssign,
        Expected.hasValue, Variant.holdsSuccess, Variant.getIfSuccess, Variant.getIfUnexpected,
        Variant.assignSuccess] at hstep <;>
      subst hstep <;> rfl
  | unexpected u =>
    cases op <;>
      simp [Expected.step, Expected.error, Expected.value, Expected.valueConst, Expected.deref,
        Expected.derefConst, Expected.arrow, Expected.valueAssign, Expected.arrowAssign,
        Expected.hasValue, Variant.holdsSuccess, Variant.getIfSuccess, Variant.getIfUnexpected,
        Variant.assignSuccess] at hstep <;>
      subst hstep <;> rfl

theorem Expected.run_hasValue {S F : Type} (ops : List (Expected.Op S)) :
    ∀ (r r1 : Expected S F), r.run ops = Except.ok r1 → r1.hasValue = r.hasValue := by
  induction ops with
  | nil =>
    intro r r1 hrun
    simp only [Expected.run, Except.ok.injEq] at hrun
    rw [hrun]
  | cons op ops ih =>
    intro r r1 hrun
    simp only [Expected.run] at hrun
    cases hstep : r.step op with
    | error f => simp [hstep] at hrun
    | ok r2 =>
      rw [hstep] at hrun
      exact (ih r2 r1 hrun).trans (Expected.step_hasValue r r2 op hstep)

/-- C11: for every `Expected` `r` with `hasValue()` true, `operator*` returns the success value
that `value()` returns and `operator->` points at that same value, in the mutable and in the
read-only overloads. -/
theorem C11_deref_arrow_alias {S F : Type} (r : Expected S F) (hv : r.hasValue = true) :
    r.deref = r.value ∧ r.derefConst = r.valueConst ∧ r.arrow = r.value ∧
    r.arrow = r.valueConst ∧
    ∃ v, r.data = Variant.success v ∧ r.value = Except.ok v ∧ r.valueConst = Except.ok v ∧
      r.deref = Except.ok v ∧ r.derefConst = Except.ok v ∧ r.arrow = Except.ok v := by
  obtain ⟨data⟩ := r
  cases data with
  | success v =>
    exact ⟨rfl, rfl, rfl, rfl, v, rfl, rfl, rfl, rfl, rfl, rfl⟩
  | unexpected u =>
    simp [Expected.hasValue, Variant.holdsSuccess] at hv

/-- An instance of C11: the `Expected<int, Error>` holding 42. -/
theorem C11_deref_arrow_alias_witness :
    (Expected.ofSuccess 42 : Expected Nat Error).hasValue = true ∧
    (Expected.ofSuccess 42 : Expected Nat Error).deref = Except.ok 42 ∧
    (Expected.ofSuccess 42 : Expected Nat Error).arrow = Except.ok 42 := by
  have hall := C11_deref_arrow_alias (Expected.ofSuccess 42 : Expected Nat Error) rfl
  obtain ⟨-, -, -, -, v, hdata, -, -, hderef, -, harrow⟩ := hall
  have hv : v = 42 := by
    simp only [Expected.ofSuccess, Variant.success.injEq] at hdata
    exact hdata.symm
  subst hv
  exact ⟨rfl, hderef, harrow⟩

/-- C12: over the catalog the map from a code to its symbolic name is injective, and so is the
map from a code to its default phrase: two enumerators with the same name, or with the same
phrase, are the same enumerator. -/
theorem C12_catalog_injective (d : EnumDecl) (hd : d.WellFormed) (a b : Enumerator) :
    (getErrorCodeName d (d.code a) = getErrorCodeName d (d.code b) ↔ a = b) ∧
    (defaultMessage d (d.code a) = defaultMessage d (d.code b) ↔ a = b) ∧
    (a = b ↔ d.code a = d.code b) := by
  refine ⟨⟨?_, fun hab => by rw [hab]⟩, ⟨?_, fun hab => by rw [hab]⟩,
    ⟨fun hab => by rw [hab], EnumDecl.code_injective hd⟩⟩
  · simp only [getErrorCodeName, EnumDecl.caseOf_code hd]
    cases a <;> cases b <;> decide
  · simp only [defaultMessage, EnumDecl.caseOf_code hd]
    cases a <;> cases b <;> decide

/-- An instance of C12 on the sample declaration: a code whose phrase is that of `OutOfBounds`
is `OutOfBounds`. -/
theorem C12_catalog_injective_witness :
    sampleDecl.WellFormed ∧
    (defaultMessage sampleDecl (sampleDecl.code Enumerator.OutOfBounds)
        = defaultMessage sampleDecl (sampleDecl.code Enumerator.OutOfBounds) ↔
      Enumerator.OutOfBounds = Enumerator.OutOfBounds) :=
  ⟨sampleDecl_wellFormed,
    (C12_catalog_injective sampleDecl sampleDecl_wellFormed Enumerator.OutOfBounds
      Enumerator.OutOfBounds).2.1⟩

/-- C13: the alternative an `Expected` holds is fixed at construction. Whatever sequence of
public operations is carried out on it (`hasValue`, `operator bool`, `error`, `value`,
`operator*`, `operator->`, and writes through the references and pointers the mutable members
return), `hasValue()` afterwards returns what it returned before; the operations whose
assertion holds do complete, and a write does change the stored value. -/
theorem C13_alternative_fixed {S F : Type} (r r1 : Expected S F) (ops : List (Expected.Op S))
    (hrun : r.run ops = Except.ok r1) (v w : S) (u : detail.Unexpected F)
    (op : Expected.Op S) :
    r1.hasValue = r.hasValue ∧
    (∀ r2, r.step op = Except.ok r2 → r2.hasValue = r.hasValue) ∧
    (Expected.ofSuccess v : Expected S F).hasValue = true ∧
    (Expected.ofUnexpected u : Expected S F).hasValue = false ∧
    (op ≠ Expected.Op.error →
      ∃ r2, (Expected.ofSuccess v : Expected S F).step op = Except.ok r2 ∧ r2.hasValue = true) ∧
    (∃ r2, (Expected.ofSuccess v : Expected S F).step (Expected.Op.valueAssign w) = Except.ok r2 ∧
      r2.value = Except.ok w) ∧
    (∃ r2, (Expected.ofUnexpected u : Expected S F).step Expected.Op.error = Except.ok r2 ∧
      r2.hasValue = false) := by
  refine ⟨Expected.run_hasValue ops r r1 hrun,
    fun r2 hstep => Expected.step_hasValue r r2 op hstep, rfl, rfl, ?_,
    ⟨Expected.ofSuccess w, rfl, rfl⟩, ⟨Expected.ofUnexpected u, rfl, rfl⟩⟩
  intro hop
  cases op with
  | error => exact absurd rfl hop
  | valueAssign w1 => exact ⟨Expected.ofSuccess w1, rfl, rfl⟩
  | derefAssign w1 => exact ⟨Expected.ofSuccess w1, rfl, rfl⟩
  | arrowAssign w1 => exact ⟨Expected.ofSuccess w1, rfl, rfl⟩
  | _ => exact ⟨Expected.ofSuccess v, rfl, rfl⟩

/-- An instance of C13: on the `Expected` holding 42, reading through `operator*`, writing 7
through `value()`, writing 9 through `operator->` and testing `operator bool` leave `hasValue()`
true. -/
theorem C13_alternative_fixed_witness :
    (Expected.ofSuccess 42 : Expected Nat Nat).run
        [Expected.Op.deref, Expected.Op.valueAssign 7, Expected.Op.arrowAssign 9,
          Expected.Op.toBool] = Except.ok (Expected.ofSuccess 9) ∧
    (Expected.ofSuccess 9 : Expected Nat Nat).hasValue
      = (Expected.ofSuccess 42 : Expected Nat Nat).hasValue :=
  ⟨rfl, (C13_alternative_fixed (Expected.ofSuccess 42 : Expected Nat Nat) (Expected.ofSuccess 9)
    [Expected.Op.deref, Expected.Op.valueAssign 7, Expected.Op.arrowAssign 9, Expected.Op.toBool]
    rfl 0 0 ⟨0⟩ Expected.Op.hasValue).1⟩

/-! ## Auxiliary facts: the two representations of a word -/

theorem lt_of_and_mask_eq_zero {p : Nat} (hp : p < 2 ^ 64) (hclear : p &&& kErrorExtMask = 0) :
    p < 2 ^ 63 := by
  rw [kErrorExtMask_eq, Nat.and_two_pow] at hclear
  have hbit : p.testBit 63 = false := by
    cases hb : p.testBit 63 with
    | false => rfl
    | true => simp [hb] at hclear
  apply Nat.lt_pow_two_of_testBit
  intro i hi
  by_cases h63 : i = 63
  · rw [h63]
    exact hbit
  · have hle : 2 ^ 64 ≤ 2 ^ i := Nat.pow_le_pow_right (by decide) (by omega)
    exact Nat.testBit_lt_two_pow (lt_of_lt_of_le hp hle)

theorem and_not_mask_of_lt {x : Nat} (hx : x < 2 ^ 63) : x &&& not64 kErrorExtMask = x := by
  rw [not64_kErrorExtMask]
  exact Nat.and_pow_two_sub_one_of_lt_two_pow hx

theorem toErrorExt_of_tag {w : Nat} (htag : w &&& kErrorExtMask ≠ 0) :
    toErrorExt w = Except.ok (w &&& not64 kErrorExtMask) := by
  unfold toErrorExt
  rw [if_pos htag]

theorem toErrorExt_of_clear {w : Nat} (hclear : w &&& kErrorExtMask = 0) :
    toErrorExt w = Except.error Fault.assertion := by
  unfold toErrorExt
  rw [if_neg (by simpa using hclear)]

theorem getErrorCode_inline (d : EnumDecl) (h : Heap) {w : Nat}
    (hclear : w &&& kErrorExtMask = 0) :
    getErrorCode d h w
      = Except.ok (if w = 0 then d.code Enumerator.None else d.ofWord w) := by
  unfold getErrorCode
  by_cases hz : w = 0
  · simp [hz]
  · simp [hz, hclear]

theorem getErrorMessage_inline (d : EnumDecl) (h : Heap) {e : Error}
    (hclear : e._data &&& kErrorExtMask = 0) :
    e.getErrorMessage d h
      = Except.ok (defaultMessage d
          (if e._data = 0 then d.code Enumerator.None else d.ofWord e._data)) := by
  unfold Error.getErrorMessage Error.getCode
  rw [getErrorCode_inline d h hclear]
  simp [hclear]

theorem destroy_inline (h : Heap) {e : Error} (hclear : e._data &&& kErrorExtMask = 0) :
    Error.destroy h e = Except.ok (Error.mk 0, h) := by
  unfold Error.destroy
  simp [hclear]

theorem EnumDecl.caseOf_eq_none {d : EnumDecl} {c : ErrorCode} (hout : ∀ a, d.code a ≠ c) :
    d.caseOf c = none := by
  unfold EnumDecl.caseOf
  rw [List.find?_eq_none]
  intro a _
  simpa using hout a

theorem EnumDecl.toWord_code_of_nonneg {d : EnumDecl} {c : Enumerator}
    (hv : d.enumValue c < 2 ^ 63)
    (hs : d.isSigned = true → d.enumValue c < 2 ^ (d.bits - 1)) :
    d.toWord (d.code c) = d.enumValue c := by
  unfold EnumDecl.toWord EnumDecl.code
  simp only
  have hlt : d.enumValue c < 18446744073709551616 := lt_trans hv (by decide)
  by_cases hsig : d.isSigned = true
  · have hn : ¬ (2 ^ (d.bits - 1) ≤ d.enumValue c) := Nat.not_le.mpr (hs hsig)
    simpa [hn] using Nat.mod_eq_of_lt hlt
  · simpa [hsig] using Nat.mod_eq_of_lt hlt

/-- On the sample declaration, whose underlying type has 32 bits, the word `2^32 + 5` has bit 63
clear and is the word of no enumerator, yet `static_cast<ErrorCode>` reduces it to the value of
`FileNotFound`: what the switch sees is the code read from the word, not the word. -/
theorem sampleDecl_word_reduced :
    (4294967301 : Nat) &&& kErrorExtMask = 0 ∧
    (∀ a, sampleDecl.toWord (sampleDecl.code a) ≠ 4294967301) ∧
    (Error.mk 4294967301).getCode sampleDecl Heap.empty
      = Except.ok (sampleDecl.code Enumerator.FileNotFound) ∧
    (Error.mk 4294967301).getErrorMessage sampleDecl Heap.empty = Except.ok "File not found" := by
  refine ⟨by decide, ?_, by decide, by decide⟩
  intro a
  cases a <;> decide

/-- C14: for a catalog code `c` whose numeric value is non-negative and below `2^63`, the word
stored by `Error(c)` is that value, with bit 63 clear and the remaining bits equal to the value;
`getCode` and `getErrorMessage` then read the word only, giving the same defined result on every
heap. -/
theorem C14_inline_word (d : EnumDecl) (h : Heap) (c : Enumerator) (hfit : d.FitsInline c) :
    (Error.ofCode d (d.code c))._data = d.enumValue c ∧
    (Error.ofCode d (d.code c))._data &&& kErrorExtMask = 0 ∧
    (Error.ofCode d (d.code c))._data &&& not64 kErrorExtMask = d.enumValue c ∧
    toErrorExt (Error.ofCode d (d.code c))._data = Except.error Fault.assertion ∧
    (Error.ofCode d (d.code c)).getCode d h
      = Except.ok (if d.enumValue c = 0 then d.code Enumerator.None
          else d.ofWord (d.enumValue c)) ∧
    (Error.ofCode d (d.code c)).getErrorMessage d h
      = Except.ok (defaultMessage d (if d.enumValue c = 0 then d.code Enumerator.None
          else d.ofWord (d.enumValue c))) ∧
    (Error.ofCode d (d.code c)).getCode d h
      = (Error.ofCode d (d.code c)).getCode d Heap.empty ∧
    (Error.ofCode d (d.code c)).getErrorMessage d h
      = (Error.ofCode d (d.code c)).getErrorMessage d Heap.empty := by
  obtain ⟨hv, hs⟩ := hfit
  have hword : (Error.ofCode d (d.code c))._data = d.enumValue c :=
    EnumDecl.toWord_code_of_nonneg hv hs
  have hclear : (Error.ofCode d (d.code c))._data &&& kErrorExtMask = 0 := by
    rw [hword]
    exact and_mask_of_lt hv
  have hcode : ∀ h1 : Heap, (Error.ofCode d (d.code c)).getCode d h1
      = Except.ok (if d.enumValue c = 0 then d.code Enumerator.None
          else d.ofWord (d.enumValue c)) := by
    intro h1
    unfold Error.getCode
    rw [getErrorCode_inline d h1 hclear, hword]
  have hmsg : ∀ h1 : Heap, (Error.ofCode d (d.code c)).getErrorMessage d h1
      = Except.ok (defaultMessage d (if d.enumValue c = 0 then d.code Enumerator.None
          else d.ofWord (d.enumValue c))) := by
    intro h1
    rw [getErrorMessage_inline d h1 hclear, hword]
  refine ⟨hword, hclear, ?_, toErrorExt_of_clear hclear, hcode h, hmsg h, ?_, ?_⟩
  · rw [hword]
    exact and_not_mask_of_lt hv
  · rw [hcode h, hcode Heap.empty]
  · rw [hmsg h, hmsg Heap.empty]

/-- An instance of C14: `Error(ImpossibleRelocation)` on the sample declaration holds the
word 19. -/
theorem C14_inline_word_witness :
    sampleDecl.FitsInline Enumerator.ImpossibleRelocation ∧
    (Error.ofCode sampleDecl (sampleDecl.code Enumerator.ImpossibleRelocation))._data = 19 ∧
    (Error.ofCode sampleDecl (sampleDecl.code Enumerator.ImpossibleRelocation))._data
      &&& kErrorExtMask = 0 :=
  ⟨⟨by decide, fun hsig => by simp [sampleDecl] at hsig⟩,
    (C14_inline_word sampleDecl Heap.empty Enumerator.ImpossibleRelocation
      ⟨by decide, fun hsig => by simp [sampleDecl] at hsig⟩).1,
    (C14_inline_word sampleDecl Heap.empty Enumerator.ImpossibleRelocation
      ⟨by decide, fun hsig => by simp [sampleDecl] at hsig⟩).2.1⟩

/-- C15: for an inline `Error` whose code is none of the enumerators, `getErrorMessage()`
returns the empty string and the switch of `getErrorCodeName` goes to its default branch, so that
`getErrorName()` returns the null pointer and no catalog name; where `assert` is kept, that
default branch stops at `assert(false)`. -/
theorem C15_unmapped_code (d : EnumDecl) (h : Heap) (e : Error)
    (hclear : e._data &&& kErrorExtMask = 0)
    (hout : ∀ a, e.getCode d h ≠ Except.ok (d.code a)) :
    e.getErrorMessage d h = Except.ok "" ∧
    e.getErrorName d h = Except.ok none ∧
    ∃ c, e.getCode d h = Except.ok c ∧ d.caseOf c = none ∧ getErrorCodeName d c = none ∧
      defaultMessage d c = "" ∧ getErrorCodeNameChecked d c = Except.error Fault.assertion := by
  have hget := getErrorCode_inline d h hclear
  have hmsg := getErrorMessage_inline d h hclear
  have hcase : d.caseOf (if e._data = 0 then d.code Enumerator.None else d.ofWord e._data)
      = none := by
    apply EnumDecl.caseOf_eq_none
    intro a ha
    apply hout a
    unfold Error.getCode
    rw [hget, ha]
  have hname : getErrorCodeName d
      (if e._data = 0 then d.code Enumerator.None else d.ofWord e._data) = none := by
    simp only [getErrorCodeName, hcase]
  have hdefault : defaultMessage d
      (if e._data = 0 then d.code Enumerator.None else d.ofWord e._data) = "" := by
    simp only [defaultMessage, hcase]
  refine ⟨?_, ?_, _, hget, hcase, hname, hdefault, ?_⟩
  · rw [hmsg, hdefault]
  · simp only [Error.getErrorName, Error.getCode, hget, hname]
  · simp only [getErrorCodeNameChecked, hname]

/-- An instance of C15: the inline `Error` built from the value 1000, which the sample
declaration gives to no enumerator. -/
theorem C15_unmapped_code_witness :
    (Error.ofCode sampleDecl ⟨1000⟩)._data &&& kErrorExtMask = 0 ∧
    (Error.ofCode sampleDecl ⟨1000⟩).getErrorMessage sampleDecl Heap.empty = Except.ok "" ∧
    (Error.ofCode sampleDecl ⟨1000⟩).getErrorName sampleDecl Heap.empty = Except.ok none :=
  ⟨by decide,
    (C15_unmapped_code sampleDecl Heap.empty (Error.ofCode sampleDecl ⟨1000⟩) (by decide)
      (fun a => by cases a <;> decide)).1,
    (C15_unmapped_code sampleDecl Heap.empty (Error.ofCode sampleDecl ⟨1000⟩) (by decide)
      (fun a => by cases a <;> decide)).2.1⟩

/-- C16, as stated, fails for an inline `Error`: destroying `Error(FileNotFound)` (word 5 on the
sample declaration) releases nothing but leaves the word 0, not 5, so the state made of the word
and the live records is not left unchanged. -/
theorem C16_inline_destroy_changes_word :
    (Error.ofCode sampleDecl (sampleDecl.code Enumerator.FileNotFound))._data = 5 ∧
    (Error.ofCode sampleDecl (sampleDecl.code Enumerator.FileNotFound))._data
      &&& kErrorExtMask = 0 ∧
    Error.destroy Heap.empty (Error.ofCode sampleDecl (sampleDecl.code Enumerator.FileNotFound))
      = Except.ok (Error.mk 0, Heap.empty) ∧
    Error.destroy Heap.empty (Error.ofCode sampleDecl (sampleDecl.code Enumerator.FileNotFound))
      ≠ Except.ok (Error.ofCode sampleDecl (sampleDecl.code Enumerator.FileNotFound),
          Heap.empty) := by
  have hclear : (Error.ofCode sampleDecl (sampleDecl.code Enumerator.FileNotFound))._data
      &&& kErrorExtMask = 0 := by decide
  refine ⟨by decide, hclear, destroy_inline Heap.empty hclear, ?_⟩
  rw [destroy_inline Heap.empty hclear]
  intro heq
  have hword := congrArg (fun x : Error × Heap => x.1._data) (Except.ok.inj heq)
  revert hword
  decide

/-- C16, amended: destroying an extended `Error` that owns the live record at `p` completes and
releases that record and no other, every other address keeping what it held; destroying an
inline `Error` completes, releases nothing and leaves the live records as they were, on every
heap. -/
theorem C16_destroy_frame (h : Heap) (e : Error) (p : Nat) (ext : ErrorExt) :
    (p ≠ 0 → p < 2 ^ 63 → h p = some ext →
      (Error.destroy h (Error.mk (p ||| kErrorExtMask))).map Prod.snd = Except.ok (h.free p) ∧
      (h.free p) p = none ∧ (∀ q, q ≠ p → (h.free p) q = h q)) ∧
    (e._data &&& kErrorExtMask = 0 → (Error.destroy h e).map Prod.snd = Except.ok h) := by
  constructor
  · intro hp0 hp hlive
    refine ⟨?_, ?_, ?_⟩
    · unfold Error.destroy
      simp only
      rw [if_pos (or_mask_and_mask p), toErrorExt_tagged hp]
      simp [Heap.delete, hp0, hlive, Except.map]
    · simp [Heap.free]
    · intro q hq
      simp [Heap.free, hq]
  · intro hclear
    rw [destroy_inline h hclear]
    rfl

/-- An instance of C16, amended. With records at 4096 and 8192, destroying the extended `Error`
for 4096 releases 4096 and keeps 8192, and destroying the inline word 5 keeps both; on the empty
heap, destroying the inline word 5 completes and the heap stays empty. -/
theorem C16_destroy_frame_witness :
    (Error.destroy ((Heap.empty.store 8192 ⟨⟨3⟩, "kept"⟩).store 4096 ⟨⟨11⟩, "gone"⟩)
        (Error.mk (4096 ||| kErrorExtMask))).map Prod.snd
      = Except.ok (((Heap.empty.store 8192 ⟨⟨3⟩, "kept"⟩).store 4096 ⟨⟨11⟩, "gone"⟩).free 4096) ∧
    (((Heap.empty.store 8192 ⟨⟨3⟩, "kept"⟩).store 4096 ⟨⟨11⟩, "gone"⟩).free 4096) 4096 = none ∧
    (((Heap.empty.store 8192 ⟨⟨3⟩, "kept"⟩).store 4096 ⟨⟨11⟩, "gone"⟩).free 4096) 8192
      = some ⟨⟨3⟩, "kept"⟩ ∧
    (Error.destroy ((Heap.empty.store 8192 ⟨⟨3⟩, "kept"⟩).store 4096 ⟨⟨11⟩, "gone"⟩)
        (Error.mk 5)).map Prod.snd
      = Except.ok ((Heap.empty.store 8192 ⟨⟨3⟩, "kept"⟩).store 4096 ⟨⟨11⟩, "gone"⟩) ∧
    (Error.destroy Heap.empty (Error.mk 5)).map Prod.snd = Except.ok Heap.empty :=
  ⟨((C16_destroy_frame ((Heap.empty.store 8192 ⟨⟨3⟩, "kept"⟩).store 4096 ⟨⟨11⟩, "gone"⟩)
      (Error.mk 5) 4096 ⟨⟨11⟩, "gone"⟩).1 (by decide) (by decide) (by decide)).1,
    by decide, by decide,
    (C16_destroy_frame ((Heap.empty.store 8192 ⟨⟨3⟩, "kept"⟩).store 4096 ⟨⟨11⟩, "gone"⟩)
      (Error.mk 5) 4096 ⟨⟨11⟩, "gone"⟩).2 (by decide),
    (C16_destroy_frame Heap.empty (Error.mk 5) 4096 ⟨⟨11⟩, "gone"⟩).2 (by decide)⟩

/-- C17: on 64-bit words, tagging an address `p` with bit 63 clear gives a word that passes the
assertion of `toErrorExt`, which returns `p`; and for every word `w` the assertion of
`toErrorExt` holds exactly when `w & kErrorExtMask` is non-zero, which is when the destructor,
`getErrorCode` and `getErrorMessage` go to the record, so none of them ever fails the assertion. -/
theorem C17_tag_roundtrip (d : EnumDecl) (h : Heap) (p w : Nat) (hp : p < 2 ^ 64)
    (hclear : p &&& kErrorExtMask = 0) :
    (p ||| kErrorExtMask) &&& kErrorExtMask ≠ 0 ∧
    toErrorExt (p ||| kErrorExtMask) = Except.ok p ∧
    ((∃ a, toErrorExt w = Except.ok a) ↔ w &&& kErrorExtMask ≠ 0) ∧
    (toErrorExt w = Except.error Fault.assertion ↔ w &&& kErrorExtMask = 0) ∧
    (∀ a, toErrorExt w = Except.ok a →
      Error.destroy h (Error.mk w) = (h.delete a).map (fun h1 => (Error.mk 0, h1)) ∧
      getErrorCode d h w = (h.load a).map ErrorExt.code ∧
      (Error.mk w).getErrorMessage d h = (h.load a).map ErrorExt.message) ∧
    (toErrorExt w = Except.error Fault.assertion →
      Error.destroy h (Error.mk w) = Except.ok (Error.mk 0, h) ∧
      getErrorCode d h w
        = Except.ok (if w = 0 then d.code Enumerator.None else d.ofWord w) ∧
      (Error.mk w).getErrorMessage d h
        = Except.ok (defaultMessage d
            (if w = 0 then d.code Enumerator.None else d.ofWord w))) ∧
    Error.destroy h (Error.mk w) ≠ Except.error Fault.assertion ∧
    getErrorCode d h w ≠ Except.error Fault.assertion ∧
    (Error.mk w).getErrorMessage d h ≠ Except.error Fault.assertion := by
  have hp63 : p < 2 ^ 63 := lt_of_and_mask_eq_zero hp hclear
  have hext : ∀ a, toErrorExt w = Except.ok a →
      Error.destroy h (Error.mk w) = (h.delete a).map (fun h1 => (Error.mk 0, h1)) ∧
      getErrorCode d h w = (h.load a).map ErrorExt.code ∧
      (Error.mk w).getErrorMessage d h = (h.load a).map ErrorExt.message := by
    intro a ha
    have htag : w &&& kErrorExtMask ≠ 0 := by
      intro hz
      rw [toErrorExt_of_clear hz] at ha
      cases ha
    have hw0 : w ≠ 0 := by
      intro hz
      apply htag
      rw [hz]
      rfl
    refine ⟨?_, ?_, ?_⟩
    · unfold Error.destroy
      simp only
      rw [if_pos htag, ha]
      cases hdel : h.delete a <;> simp [Except.map, hdel]
    · unfold getErrorCode
      rw [if_neg hw0, if_pos htag, ha]
      cases hload : h.load a <;> simp [Except.map, hload]
    · unfold Error.getErrorMessage
      simp only
      rw [if_pos htag, ha]
      cases hload : h.load a <;> simp [Except.map, hload]
  have hinl : toErrorExt w = Except.error Fault.assertion →
      Error.destroy h (Error.mk w) = Except.ok (Error.mk 0, h) ∧
      getErrorCode d h w
        = Except.ok (if w = 0 then d.code Enumerator.None else d.ofWord w) ∧
      (Error.mk w).getErrorMessage d h
        = Except.ok (defaultMessage d
            (if w = 0 then d.code Enumerator.None else d.ofWord w)) := by
    intro ha
    have hz : w &&& kErrorExtMask = 0 := by
      by_contra htag
      rw [toErrorExt_of_tag htag] at ha
      cases ha
    exact ⟨destroy_inline h (e := Error.mk w) hz, getErrorCode_inline d h hz,
      getErrorMessage_inline d h (e := Error.mk w) hz⟩
  refine ⟨or_mask_and_mask p, toErrorExt_tagged hp63, ?_, ?_, hext, hinl, ?_, ?_, ?_⟩
  · constructor
    · rintro ⟨a, ha⟩ hz
      rw [toErrorExt_of_clear hz] at ha
      cases ha
    · intro htag
      exact ⟨_, toErrorExt_of_tag htag⟩
  · constructor
    · intro ha
      by_contra htag
      rw [toErrorExt_of_tag htag] at ha
      cases ha
    · exact toErrorExt_of_clear
  · by_cases htag : w &&& kErrorExtMask = 0
    · rw [(hinl (toErrorExt_of_clear htag)).1]
      simp
    · rw [(hext _ (toErrorExt_of_tag htag)).1]
      unfold Heap.delete
      split_ifs
      · simp [Except.map]
      · cases h (w &&& not64 kErrorExtMask) <;> simp [Except.map]
  · by_cases htag : w &&& kErrorExtMask = 0
    · rw [(hinl (toErrorExt_of_clear htag)).2.1]
      simp
    · rw [(hext _ (toErrorExt_of_tag htag)).2.1]
      unfold Heap.load
      split_ifs
      · simp [Except.map]
      · cases h (w &&& not64 kErrorExtMask) <;> simp [Except.map]
  · by_cases htag : w &&& kErrorExtMask = 0
    · rw [(hinl (toErrorExt_of_clear htag)).2.2]
      simp
    · rw [(hext _ (toErrorExt_of_tag htag)).2.2]
      unfold Heap.load
      split_ifs
      · simp [Except.map]
      · cases h (w &&& not64 kErrorExtMask) <;> simp [Except.map]

/-- An instance of C17: the address 4096 tagged and untagged again. -/
theorem C17_tag_roundtrip_witness :
    (4096 : Nat) < 2 ^ 64 ∧ 4096 &&& kErrorExtMask = 0 ∧
    toErrorExt (4096 ||| kErrorExtMask) = Except.ok 4096 :=
  ⟨by decide, by decide,
    (C17_tag_roundtrip sampleDecl Heap.empty 4096 0 (by decide) (by decide)).2.1⟩

end zasm
